import Mathlib

/-!
# complex_lint: a shallow embedding of `main.go`

The Go program estimates, for every function declaration of a parsed file,
the size of the input and output "state space" implied by the parameter and
result types, and three syntactic counters over the function body.

Modelling conventions.

* `types.Type` values are the inductive `GoType`.  Cycles between Go types
  always pass through a named type, and `typeStateSpace` never looks inside a
  named type, so `Named` is a leaf.
* Go `int` is a 64-bit two's complement integer: every multiplication is
  followed by `wrapInt`.
* `fmt.Printf` inside `typeStateSpace` is modelled by returning the text that
  was written next to the returned value.
* The syntax tree handed to `ast.Inspect` is a rose tree of nodes tagged with
  their concrete `ast` node type; the children of a node are its non-nil
  children in the order `ast.Walk` visits them.
* A run ends in a value, in a panic, or exhausts the recursion budget
  (`Res`).
-/

namespace ComplexLint

/-! ## Machine integers -/

/-- Reduction of an unbounded integer to a Go `int` (64 bits, two's complement). -/
def wrapInt (x : Int) : Int := (x + 2 ^ 63) % 2 ^ 64 - 2 ^ 63

/-- Go `a * b` on `int`. -/
def mulInt (a b : Int) : Int := wrapInt (a * b)

/-! ## go/types -/

/-- The constants of `types.BasicKind`, in declaration order. -/
inductive BasicKind where
  | Invalid
  | Bool
  | Int
  | Int8
  | Int16
  | Int32
  | Int64
  | Uint
  | Uint8
  | Uint16
  | Uint32
  | Uint64
  | Uintptr
  | Float32
  | Float64
  | Complex64
  | Complex128
  | String
  | UnsafePointer
  | UntypedBool
  | UntypedInt
  | UntypedRune
  | UntypedFloat
  | UntypedComplex
  | UntypedString
  | UntypedNil
  deriving DecidableEq, Repr

/-- Numeric value of a `BasicKind` constant (what `%v` prints). -/
def kindCode : BasicKind → Nat
  | .Invalid => 0
  | .Bool => 1
  | .Int => 2
  | .Int8 => 3
  | .Int16 => 4
  | .Int32 => 5
  | .Int64 => 6
  | .Uint => 7
  | .Uint8 => 8
  | .Uint16 => 9
  | .Uint32 => 10
  | .Uint64 => 11
  | .Uintptr => 12
  | .Float32 => 13
  | .Float64 => 14
  | .Complex64 => 15
  | .Complex128 => 16
  | .String => 17
  | .UnsafePointer => 18
  | .UntypedBool => 19
  | .UntypedInt => 20
  | .UntypedRune => 21
  | .UntypedFloat => 22
  | .UntypedComplex => 23
  | .UntypedString => 24
  | .UntypedNil => 25

/-- The integer kinds of every width and signedness. -/
def isIntegerKind : BasicKind → Bool
  | .Int | .Int8 | .Int16 | .Int32 | .Int64 => true
  | .Uint | .Uint8 | .Uint16 | .Uint32 | .Uint64 | .Uintptr => true
  | _ => false

/-- A `types.Type` value; `nil` is the nil interface value.  A struct is the
list of its fields (`*types.Var`: name and type). -/
inductive GoType where
  | nil
  | Basic (kind : BasicKind)
  | Slice (elem : GoType)
  | Pointer (elem : GoType)
  | Struct (fields : List (String × GoType))
  | Array (len : Nat) (elem : GoType)
  | Map (key : GoType) (elem : GoType)
  | Chan (elem : GoType)
  | Signature (params : List GoType) (results : List GoType)
  | Interface
  | Named (name : String)
  | Tuple (vars : List GoType)
  | TypeParam (name : String)
  | Union (terms : List GoType)
  | Alias (name : String)

/-- True for the nil interface value. -/
def GoType.isNil : GoType → Bool
  | .nil => true
  | _ => false

/-- What a call returned and what it wrote to standard output. -/
structure Ret where
  value : Int
  stdout : List String

/-! ## typeStateSpace (main.go 55-84) -/

mutual
/-- Embedding of `typeStateSpace`. -/
def typeStateSpace : GoType → Ret
  | .Basic k =>
    match k with
    | .Bool => ⟨2, []⟩
    | .Int => ⟨10, []⟩
    | .Uint64 => ⟨10, []⟩
    | .String => ⟨10, []⟩
    | k => ⟨1, ["не указан тип: " ++ toString (kindCode k)]⟩
  | .Slice e =>
    let elemSpace := typeStateSpace e
    ⟨mulInt elemSpace.value 100, elemSpace.stdout⟩
  | .Pointer e => typeStateSpace e
  | .Struct fs => structLoop fs 1 []
  | _ => ⟨1, []⟩
/-- The `for i := 0; i < t.NumFields(); i++` loop of the struct case, from the
current field on, with the running `stateSpace` and the output so far. -/
def structLoop : List (String × GoType) → Int → List String → Ret
  | [], stateSpace, out => ⟨stateSpace, out⟩
  | f :: rest, stateSpace, out =>
    let r := typeStateSpace f.2
    structLoop rest (mulInt stateSpace r.value) (out ++ r.stdout)
end

mutual
/-- The computation of `typeStateSpace` carried out on unbounded naturals. -/
def typeStateSpaceExact : GoType → Nat
  | .Basic k =>
    match k with
    | .Bool => 2
    | .Int => 10
    | .Uint64 => 10
    | .String => 10
    | _ => 1
  | .Slice e => typeStateSpaceExact e * 100
  | .Pointer e => typeStateSpaceExact e
  | .Struct fs => structExact fs
  | _ => 1
/-- Unbounded product over the fields of a struct. -/
def structExact : List (String × GoType) → Nat
  | [] => 1
  | f :: rest => typeStateSpaceExact f.2 * structExact rest
end

/-- Fits in a Go `int`. -/
def inIntRange (x : Int) : Prop := -(2 ^ 63) ≤ x ∧ x < 2 ^ 63

/-- The type of `n` nested slices of int: `int`, `[]int`, `[][]int`, ... -/
def nestedSlice : Nat → GoType
  | 0 => .Basic .Int
  | n + 1 => .Slice (nestedSlice n)

/-- The fields s0, s1, ... of a struct with `n` fields of type string. -/
def stringFields (n : Nat) : List (String × GoType) :=
  (List.range n).map (fun i => ("s" ++ toString i, GoType.Basic .String))

/-- A struct with `n` fields of type bool, named f0, f1, ... -/
def boolStruct (n : Nat) : GoType :=
  .Struct ((List.range n).map (fun i => ("f" ++ toString i, GoType.Basic .Bool)))

/-! ## go/ast: type expressions -/

/-- How a run ends: with a value, with a run-time panic, or without an answer
within the recursion budget. -/
inductive Res (α : Type) where
  | ok (v : α)
  | panic (msg : String)
  | outOfFuel

/-- The constants of `ast.ObjKind`. -/
inductive ObjKind where
  | Bad
  | Pkg
  | Con
  | Typ
  | Var
  | Fun
  | Lbl
  deriving DecidableEq, Repr

mutual
/-- The `ast.Expr` nodes.  An identifier carries its address `ptr` (the key of
the `Defs` and `Uses` maps), its `Name` and its `Obj` pointer (an address in
the object store, or nil).  Every node type that `exprType` has no case for
returns nil there; the ones that spell types are listed, `Other` stands for
the rest (literals, calls, operators).  The `Fields` of a struct type is the
`List` of its field list, which the parser never leaves nil. -/
inductive Expr where
  | Ident (ptr : Nat) (Name : String) (Obj : Option Nat)
  | ArrayType (Len : Option Expr) (Elt : Expr)
  | StarExpr (X : Expr)
  | StructType (Fields : List Field)
  | Ellipsis (Elt : Option Expr)
  | ParenExpr (X : Expr)
  | SelectorExpr (X : Expr) (Sel : String)
  | IndexExpr (X : Expr) (Index : Expr)
  | MapType (Key : Expr) (Value : Expr)
  | ChanType (Value : Expr)
  | FuncType (Params : List Field) (Results : List Field)
  | InterfaceType (Methods : List Field)
  | Other
/-- An `ast.Field`: the names declared (none for an unnamed parameter or an
embedded field) and the type expression they share. -/
inductive Field where
  | mk (Names : List String) (Typ : Expr)
end

/-- The `field.Names` of a field, each as its `Name`. -/
def Field.Names : Field → List String
  | .mk names _ => names

/-- The `field.Type` of a field. -/
def Field.Typ : Field → Expr
  | .mk _ typ => typ

/-- The `Decl` of an `ast.Object`: a type spec with its `Type` expression, or
any other declaration (or none). -/
inductive ObjDecl where
  | TypeSpec (Name : String) (Typ : Expr)
  | Other

/-- An `ast.Object`, as far as `exprType` reads it. -/
structure Object where
  Kind : ObjKind
  Decl : ObjDecl

/-- A `types.Object`, as far as the program reads it: what `Type()` returns. -/
structure TypesObject where
  Typ : GoType

/-- The symbol snapshot `pkg.TypesInfo`: the `Defs` and `Uses` maps, keyed by
identifier address; `none` is a missing key or a nil object. -/
structure Package where
  Defs : Nat → Option TypesObject
  Uses : Nat → Option TypesObject

/-- The snapshot in which no identifier is recorded. -/
def emptyPackage : Package := ⟨fun _ => none, fun _ => none⟩

/-- The store in which every address holds an object that is not a type. -/
def noObjects : Nat → Object := fun _ => ⟨.Bad, .Other⟩

/-- The type of `types.Universe.Lookup(name)`, when the name is declared in the
universe scope: the predeclared types, `true`, `false`, `iota`, `nil` and the
built-in functions. -/
def universeLookup (name : String) : Option GoType :=
  match name with
  | "bool" => some (.Basic .Bool)
  | "int" => some (.Basic .Int)
  | "int8" => some (.Basic .Int8)
  | "int16" => some (.Basic .Int16)
  | "int32" => some (.Basic .Int32)
  | "int64" => some (.Basic .Int64)
  | "uint" => some (.Basic .Uint)
  | "uint8" => some (.Basic .Uint8)
  | "uint16" => some (.Basic .Uint16)
  | "uint32" => some (.Basic .Uint32)
  | "uint64" => some (.Basic .Uint64)
  | "uintptr" => some (.Basic .Uintptr)
  | "float32" => some (.Basic .Float32)
  | "float64" => some (.Basic .Float64)
  | "complex64" => some (.Basic .Complex64)
  | "complex128" => some (.Basic .Complex128)
  | "string" => some (.Basic .String)
  | "byte" => some (.Basic .Uint8)
  | "rune" => some (.Basic .Int32)
  | "any" => some (.Alias "any")
  | "error" => some (.Named "error")
  | "comparable" => some (.Named "comparable")
  | "true" => some (.Basic .UntypedBool)
  | "false" => some (.Basic .UntypedBool)
  | "iota" => some (.Basic .UntypedInt)
  | "nil" => some (.Basic .UntypedNil)
  | "append" | "cap" | "clear" | "close" | "complex" | "copy" | "delete" | "imag" | "len"
  | "make" | "max" | "min" | "new" | "panic" | "print" | "println" | "real" | "recover" =>
    some (.Basic .Invalid)
  | _ => none

/-- The check of `types.NewStruct`: a field name other than the blank one that
was already inserted in the set of names seen so far. -/
def duplicateField : List (String × GoType) → List String → Bool
  | [], _ => false
  | f :: rest, seen =>
    if f.1 ≠ "_" then
      if f.1 ∈ seen then true else duplicateField rest (f.1 :: seen)
    else duplicateField rest seen

/-- Embedding of `types.NewStruct(fields, nil)`. -/
def NewStruct (fields : List (String × GoType)) : Res GoType :=
  if duplicateField fields [] then .panic "multiple fields with the same name"
  else .ok (.Struct fields)

/-- The type expression of the type spec that `x.Obj` declares: the test
`x.Obj != nil && x.Obj.Kind == ast.Typ` followed by the type assertion of
`x.Obj.Decl` to a type spec. -/
def objTypeSpec (objs : Nat → Object) : Option Nat → Option Expr
  | none => none
  | some a =>
    if (objs a).Kind = ObjKind.Typ then
      match (objs a).Decl with
      | .TypeSpec _ typ => some typ
      | .Other => none
    else none

/-! ## exprType (main.go 14-53) -/

/-- The loop over `x.Fields.List` of the struct case: `resolve` is the
recursive call of `exprType`, `fields` the slice built so far. -/
def structTypeLoop (resolve : Expr → Res GoType) :
    List Field → List (String × GoType) → Res (List (String × GoType))
  | [], fields => .ok fields
  | field :: rest, fields =>
    match resolve field.Typ with
    | .ok fieldType =>
      if fieldType.isNil then structTypeLoop resolve rest fields
      else structTypeLoop resolve rest (fields ++ field.Names.map (fun fieldName => (fieldName, fieldType)))
    | .panic msg => .panic msg
    | .outOfFuel => .outOfFuel

/-- Embedding of `exprType`; `objs` is the store the `Obj` pointers point
into, the first argument bounds the depth of the recursion. -/
def exprType (pkg : Package) (objs : Nat → Object) : Nat → Expr → Res GoType
  | 0, _ => .outOfFuel
  | fuel + 1, expr =>
    match expr with
    | .Ident ptr name obj =>
      match pkg.Defs ptr with
      | some o => .ok o.Typ
      | none =>
        match pkg.Uses ptr with
        | some o => .ok o.Typ
        | none =>
          match objTypeSpec objs obj with
          | some typ => exprType pkg objs fuel typ
          | none =>
            match universeLookup name with
            | some basicType => .ok basicType
            | none => .ok .nil
    | .ArrayType _ elt =>
      match exprType pkg objs fuel elt with
      | .ok elemType => if elemType.isNil then .ok .nil else .ok (.Slice elemType)
      | .panic msg => .panic msg
      | .outOfFuel => .outOfFuel
    | .StarExpr x =>
      match exprType pkg objs fuel x with
      | .ok baseType => if baseType.isNil then .ok .nil else .ok (.Pointer baseType)
      | .panic msg => .panic msg
      | .outOfFuel => .outOfFuel
    | .StructType fieldList =>
      match structTypeLoop (exprType pkg objs fuel) fieldList [] with
      | .ok fields => NewStruct fields
      | .panic msg => .panic msg
      | .outOfFuel => .outOfFuel
    | _ => .ok .nil

/-! ## analyzeInputStateSpace, analyzeOutputStateSpace (main.go 86-116) -/

/-- An `ast.FuncType`: the parameter and result field lists, each possibly nil. -/
structure FuncType where
  Params : Option (List Field)
  Results : Option (List Field)

/-- The loop `for _, param := range list` shared (textually repeated) by the
two analyses, with the running `stateSpace` and the output so far. -/
def stateSpaceLoop (pkg : Package) (objs : Nat → Object) (fuel : Nat) :
    List Field → Int → List String → Res Ret
  | [], stateSpace, out => .ok ⟨stateSpace, out⟩
  | param :: rest, stateSpace, out =>
    match exprType pkg objs fuel param.Typ with
    | .ok typ =>
      if typ.isNil then stateSpaceLoop pkg objs fuel rest stateSpace out
      else
        let r := typeStateSpace typ
        stateSpaceLoop pkg objs fuel rest (mulInt stateSpace r.value) (out ++ r.stdout)
    | .panic msg => .panic msg
    | .outOfFuel => .outOfFuel

/-! ## go/ast: the tree walked by ast.Inspect -/

/-- The concrete node types of package `ast`. -/
inductive NodeKind where
  | Comment
  | CommentGroup
  | Field
  | FieldList
  | BadExpr
  | Ident
  | Ellipsis
  | BasicLit
  | FuncLit
  | CompositeLit
  | ParenExpr
  | SelectorExpr
  | IndexExpr
  | IndexListExpr
  | SliceExpr
  | TypeAssertExpr
  | CallExpr
  | StarExpr
  | UnaryExpr
  | BinaryExpr
  | KeyValueExpr
  | ArrayType
  | StructType
  | FuncType
  | InterfaceType
  | MapType
  | ChanType
  | BadStmt
  | DeclStmt
  | EmptyStmt
  | LabeledStmt
  | ExprStmt
  | SendStmt
  | IncDecStmt
  | AssignStmt
  | GoStmt
  | DeferStmt
  | ReturnStmt
  | BranchStmt
  | BlockStmt
  | IfStmt
  | CaseClause
  | SwitchStmt
  | TypeSwitchStmt
  | CommClause
  | SelectStmt
  | ForStmt
  | RangeStmt
  | ImportSpec
  | ValueSpec
  | TypeSpec
  | BadDecl
  | GenDecl
  | FuncDecl
  deriving DecidableEq, Repr

/-- A syntax tree as `ast.Walk` sees it: the concrete type of the node and its
non-nil children, in the order in which they are walked. -/
inductive Node where
  | mk (kind : NodeKind) (children : List Node)

/-- The concrete type of a node. -/
def Node.kind : Node → NodeKind
  | .mk k _ => k

/-- The children of a node. -/
def Node.children : Node → List Node
  | .mk _ cs => cs

mutual
/-- Embedding of `ast.Inspect(node, f)` for a non-nil node: `f` is called on
the node; if it returns true the children are inspected in order and `f` is
called once more, on nil.  The variables captured by the closure `f` are the
state `σ`. -/
def Inspect {σ : Type} (f : Option Node → σ → Bool × σ) : Node → σ → σ
  | .mk k cs, s =>
    let r := f (some (.mk k cs)) s
    if r.1 then (f none (InspectList f cs r.2)).2 else r.2
/-- Inspection of a list of children, left to right. -/
def InspectList {σ : Type} (f : Option Node → σ → Bool × σ) : List Node → σ → σ
  | [], s => s
  | c :: cs, s => InspectList f cs (Inspect f c s)
end

/-- An `ast.FuncDecl`: name, signature, and body (nil for a declaration
without a body). -/
structure FuncDecl where
  Name : String
  Typ : FuncType
  Body : Option Node

/-- Embedding of `analyzeInputStateSpace`. -/
def analyzeInputStateSpace (pkg : Package) (objs : Nat → Object) (fuel : Nat)
    (f : FuncDecl) : Res Ret :=
  match f.Typ.Params with
  | some list => stateSpaceLoop pkg objs fuel list 1 []
  | none => .ok ⟨1, []⟩

/-- Embedding of `analyzeOutputStateSpace`. -/
def analyzeOutputStateSpace (pkg : Package) (objs : Nat → Object) (fuel : Nat)
    (f : FuncDecl) : Res Ret :=
  match f.Typ.Results with
  | some list => stateSpaceLoop pkg objs fuel list 1 []
  | none => .ok ⟨1, []⟩

/-! ## The counters (main.go 118-155)

`ast.Inspect(f.Body, ...)` on a nil body dereferences a nil pointer when it
reaches for the statement list.  The counters are naturals: a tree with
`2 ^ 63` nodes does not fit in memory. -/

/-- The message of the run-time panic on a nil body. -/
def nilBody : String :=
  "runtime error: invalid memory address or nil pointer dereference"

/-- The closure of `analyzeBranching`. -/
def branchingVisitor (n : Option Node) (branchingFactor : Nat) : Bool × Nat :=
  match n with
  | some (.mk .IfStmt _) => (true, branchingFactor + 1)
  | some (.mk .SwitchStmt _) => (true, branchingFactor + 1)
  | some (.mk .ForStmt _) => (true, branchingFactor + 1)
  | some (.mk .RangeStmt _) => (true, branchingFactor + 1)
  | _ => (true, branchingFactor)

/-- Embedding of `analyzeBranching`. -/
def analyzeBranching (f : FuncDecl) : Res Nat :=
  match f.Body with
  | none => .panic nilBody
  | some body => .ok (Inspect branchingVisitor body 0)

/-- The closure of `analyzeWTFComplexity`. -/
def complexityVisitor (n : Option Node) (complexity : Nat) : Bool × Nat :=
  match n with
  | some (.mk .BinaryExpr _) => (true, complexity + 1)
  | some (.mk .CallExpr _) => (true, complexity + 1)
  | some (.mk .AssignStmt _) => (true, complexity + 1)
  | _ => (true, complexity)

/-- Embedding of `analyzeWTFComplexity`. -/
def analyzeWTFComplexity (f : FuncDecl) : Res Nat :=
  match f.Body with
  | none => .panic nilBody
  | some body => .ok (Inspect complexityVisitor body 0)

/-- The closure of `countLocalAssignment`. -/
def assignmentVisitor (n : Option Node) (localVars : Nat) : Bool × Nat :=
  match n with
  | some (.mk .AssignStmt _) => (true, localVars + 1)
  | _ => (true, localVars)

/-- Embedding of `countLocalAssignment`. -/
def countLocalAssignment (f : FuncDecl) : Res Nat :=
  match f.Body with
  | none => .panic nilBody
  | some body => .ok (Inspect assignmentVisitor body 0)

/-! ## Specification-side definitions -/

mutual
/-- Specification side: every node occurring in a tree, the root included. -/
def occurring : Node → List Node
  | .mk k cs => .mk k cs :: occurringList cs
/-- Specification side: every node occurring in a list of trees. -/
def occurringList : List Node → List Node
  | [] => []
  | c :: cs => occurring c ++ occurringList cs
end

/-- Specification side: the number of nodes of a tree whose type satisfies `p`. -/
def occurrences (p : NodeKind → Bool) (n : Node) : Nat :=
  (occurring n).countP (fun m => p m.kind)

/-- Specification side: conditional, switch, counted-loop and range-loop
statements. -/
def isBranchingStmt : NodeKind → Bool
  | .IfStmt => true
  | .SwitchStmt => true
  | .ForStmt => true
  | .RangeStmt => true
  | _ => false

/-- Specification side: the multi-way branch statements of Go. -/
def isSwitchLike : NodeKind → Bool
  | .SwitchStmt => true
  | .TypeSwitchStmt => true
  | .SelectStmt => true
  | _ => false

/-- Specification side: binary expressions. -/
def isBinaryExpr : NodeKind → Bool
  | .BinaryExpr => true
  | _ => false

/-- Specification side: call expressions. -/
def isCallExpr : NodeKind → Bool
  | .CallExpr => true
  | _ => false

/-- Specification side: assignment statements. -/
def isAssignStmt : NodeKind → Bool
  | .AssignStmt => true
  | _ => false

/-- Specification side: the state space of a list of types, one factor each:
the product, over the integers, of the values `typeStateSpace` returns. -/
def productOfStateSpaces (ts : List GoType) : Int :=
  (ts.map (fun t => (typeStateSpace t).value)).prod

/-! ## Concrete inputs -/

/-- An identifier that the parser left unresolved and the snapshot does not
know, spelled `name`. -/
def plainIdent (name : String) : Expr := .Ident 0 name none

/-- The declaration `func f(a, b bool)`, with an empty body. -/
def groupedBools : FuncDecl :=
  ⟨"f", ⟨some [.mk ["a", "b"] (plainIdent "bool")], none⟩, some (.mk .BlockStmt [])⟩

/-- The declaration `func f(a bool, b bool)`, with an empty body. -/
def separateBools : FuncDecl :=
  ⟨"f", ⟨some [.mk ["a"] (plainIdent "bool"), .mk ["b"] (plainIdent "bool")], none⟩,
    some (.mk .BlockStmt [])⟩

/-- The parameter `x Foo`, where `Foo` is declared nowhere. -/
def unresolvedParam : Field := .mk ["x"] (plainIdent "Foo")

/-- The parameter `a bool`. -/
def boolParam : Field := .mk ["a"] (plainIdent "bool")

/-- A leaf of the walked tree. -/
def leaf (k : NodeKind) : Node := .mk k []

/-- The body of `func f(a, b any) { switch a.(type) { case int: } ; select { } }`. -/
def switchLikeBody : Node :=
  .mk .BlockStmt
    [ .mk .TypeSwitchStmt
        [ .mk .ExprStmt [.mk .TypeAssertExpr [leaf .Ident]],
          .mk .BlockStmt [.mk .CaseClause [leaf .Ident]] ],
      .mk .SelectStmt [leaf .BlockStmt] ]

/-- The body `{ for { if a { if b { } } } }`: a loop containing two nested
conditionals. -/
def loopTwoIfs : Node :=
  .mk .BlockStmt
    [ .mk .ForStmt
        [ .mk .BlockStmt
            [ .mk .IfStmt
                [ leaf .Ident,
                  .mk .BlockStmt [ .mk .IfStmt [leaf .Ident, leaf .BlockStmt] ] ] ] ] ]

/-- The body `{ return a + b*c }`. -/
def sumProductBody : Node :=
  .mk .BlockStmt
    [ .mk .ReturnStmt
        [ .mk .BinaryExpr [leaf .Ident, .mk .BinaryExpr [leaf .Ident, leaf .Ident]] ] ]

/-- The body `{ f(g(x)) }`. -/
def nestedCallBody : Node :=
  .mk .BlockStmt
    [ .mk .ExprStmt
        [ .mk .CallExpr [leaf .Ident, .mk .CallExpr [leaf .Ident, leaf .Ident]] ] ]

/-! ## The loop of main (main.go 187-202) -/

/-- The five numbers computed for one function declaration, and everything
written to standard output while computing and printing them. -/
structure Report where
  inputStateSpace : Int
  outputStateSpace : Int
  branchingFactor : Nat
  wtfComplexity : Nat
  localAssignment : Nat
  stdout : List String

/-- The six `fmt.Printf` calls that end the loop body of `main`. -/
def reportLines (name : String) (inputStateSpace outputStateSpace : Int)
    (branchingFactor wtfComplexity localAssignment : Nat) : List String :=
  [ "\nFunction \"" ++ name ++ "\" analysis:\n",
    " - input state space: " ++ toString inputStateSpace ++ "\n",
    " - output state space: " ++ toString outputStateSpace ++ "\n",
    " - branching factor: " ++ toString branchingFactor ++ "\n",
    " - operational complexity: " ++ toString wtfComplexity ++ "\n",
    " - local assignment: " ++ toString localAssignment ++ "\n" ]

/-- The body of the loop of `main` for a declaration that is a function
declaration: the five analyses in order, then the printing. -/
def reportFuncDecl (pkg : Package) (objs : Nat → Object) (fuel : Nat) (fn : FuncDecl) :
    Res Report :=
  match analyzeInputStateSpace pkg objs fuel fn with
  | .panic msg => .panic msg
  | .outOfFuel => .outOfFuel
  | .ok inputStateSpace =>
    match analyzeOutputStateSpace pkg objs fuel fn with
    | .panic msg => .panic msg
    | .outOfFuel => .outOfFuel
    | .ok outputStateSpace =>
      match analyzeBranching fn with
      | .panic msg => .panic msg
      | .outOfFuel => .outOfFuel
      | .ok branchingFactor =>
        match analyzeWTFComplexity fn with
        | .panic msg => .panic msg
        | .outOfFuel => .outOfFuel
        | .ok wtfComplexity =>
          match countLocalAssignment fn with
          | .panic msg => .panic msg
          | .outOfFuel => .outOfFuel
          | .ok localAssignment =>
            .ok ⟨inputStateSpace.value, outputStateSpace.value, branchingFactor,
              wtfComplexity, localAssignment,
              inputStateSpace.stdout ++ outputStateSpace.stdout
                ++ reportLines fn.Name inputStateSpace.value outputStateSpace.value
                    branchingFactor wtfComplexity localAssignment⟩

/-! ## Specification-side definitions and concrete inputs, continued -/

/-- Specification side: the node types that one of the three counters counts. -/
def isCounted (k : NodeKind) : Bool :=
  isBranchingStmt k || isBinaryExpr k || isCallExpr k || isAssignStmt k

/-- The body `{ if x op y { l = r } }`: one if statement whose condition is
the binary expression on `x` and `y` and whose block is the assignment of `r`
to `l`. -/
def oneIfBody (x y l r : Node) : Node :=
  .mk .BlockStmt
    [ .mk .IfStmt
        [ .mk .BinaryExpr [x, y],
          .mk .BlockStmt [ .mk .AssignStmt [l, r] ] ] ]

/-- A function body made of the statements `stmts`. -/
def blockOf (stmts : List Node) : Node := .mk .BlockStmt stmts

/-- The body `{ var x int }`: one local variable, no assignment statement. -/
def varDeclBody : Node :=
  .mk .BlockStmt
    [ .mk .DeclStmt [ .mk .GenDecl [ .mk .ValueSpec [leaf .Ident, leaf .Ident] ] ] ]

/-- The body `{ x := 1; x = 2; x = 3 }`: one local variable, three assignment
statements. -/
def reassignBody : Node :=
  .mk .BlockStmt
    [ .mk .AssignStmt [leaf .Ident, leaf .BasicLit],
      .mk .AssignStmt [leaf .Ident, leaf .BasicLit],
      .mk .AssignStmt [leaf .Ident, leaf .BasicLit] ]

/-- The body `{ a, b := 1, 2 }`: two local variables, one assignment statement. -/
def pairDefineBody : Node :=
  .mk .BlockStmt
    [ .mk .AssignStmt [leaf .Ident, leaf .Ident, leaf .BasicLit, leaf .BasicLit] ]

/-- The type expression `struct { a bool; b string }`. -/
def boolStringStruct : Expr :=
  .StructType [.mk ["a"] (plainIdent "bool"), .mk ["b"] (plainIdent "string")]

/-- The store in which address 0 holds the object of the declaration
`type T struct { a bool; b string }`. -/
def declaredStore : Nat → Object := fun a =>
  if a = 0 then ⟨.Typ, .TypeSpec "T" boolStringStruct⟩ else ⟨.Bad, .Other⟩

/-- The parameter type `T`: the identifier at address 7, whose `Obj` is the
object at address 0. -/
def useOfT : Expr := .Ident 7 "T" (some 0)

/-- A snapshot that records the use of `T` at address 7: the object is the
type name `T`, its type the named type `T`. -/
def checkedSnapshot : Package :=
  ⟨fun _ => none, fun ptr => if ptr = 7 then some ⟨.Named "T"⟩ else none⟩

/-- The declaration `func f(x typ)` with an empty body. -/
def oneParam (typ : Expr) : FuncDecl :=
  ⟨"f", ⟨some [.mk ["x"] typ], none⟩, some (.mk .BlockStmt [])⟩

/-- The store in which address 0 holds the object of the declaration
`type Base struct { ok bool }`. -/
def baseStore : Nat → Object := fun a =>
  if a = 0 then ⟨.Typ, .TypeSpec "Base" (.StructType [.mk ["ok"] (plainIdent "bool")])⟩
  else ⟨.Bad, .Other⟩

/-- The type expression `struct { Base; name string }`, whose first field is
embedded: it has a type and no names. -/
def embeddingStruct : Expr :=
  .StructType [.mk [] (.Ident 3 "Base" (some 0)), .mk ["name"] (plainIdent "string")]

mutual
/-- Specification side: every basic type that `typeStateSpace` reaches in a
type, through slices, pointers and struct fields, has one of the four kinds
that its switch lists. -/
def onlyListedKinds : GoType → Bool
  | .Basic k =>
    match k with
    | .Bool => true
    | .Int => true
    | .Uint64 => true
    | .String => true
    | _ => false
  | .Slice e => onlyListedKinds e
  | .Pointer e => onlyListedKinds e
  | .Struct fs => onlyListedFields fs
  | _ => true
/-- Specification side: `onlyListedKinds` for every field of a struct. -/
def onlyListedFields : List (String × GoType) → Bool
  | [] => true
  | f :: rest => onlyListedKinds f.2 && onlyListedFields rest
end

/-- Specification side: the type expression refers back to the type declared
by the object at address `a`.  It is an identifier, unknown to the snapshot,
of that object; or an identifier, unknown to the snapshot, of a declared type
whose type expression refers back; or a pointer to, or a slice or array of,
an expression that refers back; or a struct type with a field whose type
refers back, the fields declared before it resolving without a run-time
panic. -/
inductive RefersBack (pkg : Package) (objs : Nat → Object) (a : Nat) : Expr → Prop where
  | self (ptr : Nat) (name : String) :
      pkg.Defs ptr = none → pkg.Uses ptr = none →
      RefersBack pkg objs a (.Ident ptr name (some a))
  | decl (ptr : Nat) (name : String) (b : Nat) (typ : Expr) :
      pkg.Defs ptr = none → pkg.Uses ptr = none →
      objTypeSpec objs (some b) = some typ → RefersBack pkg objs a typ →
      RefersBack pkg objs a (.Ident ptr name (some b))
  | pointer (x : Expr) : RefersBack pkg objs a x → RefersBack pkg objs a (.StarExpr x)
  | slice (len : Option Expr) (elt : Expr) :
      RefersBack pkg objs a elt → RefersBack pkg objs a (.ArrayType len elt)
  | field (pre : List Field) (fld : Field) (post : List Field) :
      (∀ f ∈ pre, ∀ (fuel : Nat) (msg : String),
        exprType pkg objs fuel (Field.Typ f) ≠ .panic msg) →
      RefersBack pkg objs a (Field.Typ fld) →
      RefersBack pkg objs a (.StructType (pre ++ fld :: post))

/-- The fields `val int` and `next *T`, the latter naming the object at
address 0. -/
def listNodeFields : List Field :=
  [.mk ["val"] (plainIdent "int"), .mk ["next"] (.StarExpr (.Ident 5 "T" (some 0)))]

/-- The store in which address 0 holds the object of the declaration
`type T struct { val int; next *T }`. -/
def listNodeStore : Nat → Object := fun a =>
  if a = 0 then ⟨.Typ, .TypeSpec "T" (.StructType listNodeFields)⟩ else ⟨.Bad, .Other⟩

/-! ## Lemmas on machine integers -/

theorem wrapInt_of_inRange (x : Int) (h : inIntRange x) : wrapInt x = x := by
  unfold inIntRange at h
  unfold wrapInt
  rw [Int.emod_eq_of_lt (by omega) (by omega)]
  omega

theorem wrapInt_emod (x : Int) : wrapInt x % 2 ^ 64 = x % 2 ^ 64 := by
  unfold wrapInt
  omega

theorem wrapInt_congr (x y : Int) (h : x % 2 ^ 64 = y % 2 ^ 64) : wrapInt x = wrapInt y := by
  unfold wrapInt
  omega

theorem wrapInt_mul_wrapInt (a b : Int) : wrapInt (wrapInt a * b) = wrapInt (a * b) := by
  apply wrapInt_congr
  rw [Int.mul_emod, wrapInt_emod, ← Int.mul_emod]

theorem wrapInt_mul_wrapInt_right (a b : Int) : wrapInt (a * wrapInt b) = wrapInt (a * b) := by
  apply wrapInt_congr
  rw [Int.mul_emod, wrapInt_emod, ← Int.mul_emod]

theorem wrapInt_inRange (x : Int) : inIntRange (wrapInt x) := by
  unfold inIntRange wrapInt
  omega

theorem wrapInt_one : wrapInt 1 = 1 := by decide

/-! ## Lemmas on typeStateSpace -/

mutual
theorem typeStateSpaceExact_pos : ∀ t : GoType, 1 ≤ typeStateSpaceExact t
  | .nil => by simp [typeStateSpaceExact]
  | .Basic k => by cases k <;> simp [typeStateSpaceExact]
  | .Slice e => by
    have h := typeStateSpaceExact_pos e
    simp only [typeStateSpaceExact]
    omega
  | .Pointer e => by
    simpa [typeStateSpaceExact] using typeStateSpaceExact_pos e
  | .Struct fs => by
    simpa [typeStateSpaceExact] using structExact_pos fs
  | .Array _ _ => by simp [typeStateSpaceExact]
  | .Map _ _ => by simp [typeStateSpaceExact]
  | .Chan _ => by simp [typeStateSpaceExact]
  | .Signature _ _ => by simp [typeStateSpaceExact]
  | .Interface => by simp [typeStateSpaceExact]
  | .Named _ => by simp [typeStateSpaceExact]
  | .Tuple _ => by simp [typeStateSpaceExact]
  | .TypeParam _ => by simp [typeStateSpaceExact]
  | .Union _ => by simp [typeStateSpaceExact]
  | .Alias _ => by simp [typeStateSpaceExact]
theorem structExact_pos : ∀ fs : List (String × GoType), 1 ≤ structExact fs
  | [] => by simp [structExact]
  | f :: rest => by
    have h1 := typeStateSpaceExact_pos f.2
    have h2 := structExact_pos rest
    simp only [structExact]
    exact Nat.mul_le_mul h1 h2
end

mutual
theorem typeStateSpace_value_eq_wrap :
    ∀ t : GoType, (typeStateSpace t).value = wrapInt (typeStateSpaceExact t)
  | .nil => by simp [typeStateSpace, typeStateSpaceExact, wrapInt_one]
  | .Basic k => by cases k <;> simp [typeStateSpace, typeStateSpaceExact] <;> decide
  | .Slice e => by
    have h := typeStateSpace_value_eq_wrap e
    simp only [typeStateSpace, typeStateSpaceExact, mulInt, h, Nat.cast_mul, Nat.cast_ofNat]
    exact wrapInt_mul_wrapInt _ _
  | .Pointer e => by
    simpa [typeStateSpace, typeStateSpaceExact] using typeStateSpace_value_eq_wrap e
  | .Struct fs => by
    have h := structLoop_value_eq_wrap fs 1 [] (by unfold inIntRange; omega)
    simpa [typeStateSpace, typeStateSpaceExact] using h
  | .Array _ _ => by simp [typeStateSpace, typeStateSpaceExact, wrapInt_one]
  | .Map _ _ => by simp [typeStateSpace, typeStateSpaceExact, wrapInt_one]
  | .Chan _ => by simp [typeStateSpace, typeStateSpaceExact, wrapInt_one]
  | .Signature _ _ => by simp [typeStateSpace, typeStateSpaceExact, wrapInt_one]
  | .Interface => by simp [typeStateSpace, typeStateSpaceExact, wrapInt_one]
  | .Named _ => by simp [typeStateSpace, typeStateSpaceExact, wrapInt_one]
  | .Tuple _ => by simp [typeStateSpace, typeStateSpaceExact, wrapInt_one]
  | .TypeParam _ => by simp [typeStateSpace, typeStateSpaceExact, wrapInt_one]
  | .Union _ => by simp [typeStateSpace, typeStateSpaceExact, wrapInt_one]
  | .Alias _ => by simp [typeStateSpace, typeStateSpaceExact, wrapInt_one]
theorem structLoop_value_eq_wrap :
    ∀ (fs : List (String × GoType)) (acc : Int) (out : List String), inIntRange acc →
      (structLoop fs acc out).value = wrapInt (acc * structExact fs)
  | [], acc, out, hacc => by
    simp [structLoop, structExact, wrapInt_of_inRange acc hacc]
  | f :: rest, acc, out, _ => by
    have h1 := typeStateSpace_value_eq_wrap f.2
    have h2 := structLoop_value_eq_wrap rest (mulInt acc (typeStateSpace f.2).value)
      (out ++ (typeStateSpace f.2).stdout) (wrapInt_inRange _)
    simp only [structLoop, structExact, Nat.cast_mul]
    rw [h2, h1, mulInt, wrapInt_mul_wrapInt, mul_comm acc, mul_assoc, wrapInt_mul_wrapInt]
    congr 1
    ring
end

theorem structLoop_value_eq_foldl :
    ∀ (fs : List (String × GoType)) (acc : Int) (out : List String),
      (structLoop fs acc out).value
        = (fs.map Prod.snd).foldl (fun a t => mulInt a (typeStateSpace t).value) acc
  | [], acc, out => by simp [structLoop]
  | f :: rest, acc, out => by
    simp only [structLoop, List.map_cons, List.foldl_cons]
    exact structLoop_value_eq_foldl rest _ _

theorem foldl_mulInt_eq_wrap (vs : List Int) :
    ∀ acc : Int, inIntRange acc → vs.foldl mulInt acc = wrapInt (acc * vs.prod) := by
  induction vs with
  | nil => intro acc h; simp [wrapInt_of_inRange acc h]
  | cons v rest ih =>
    intro acc _
    simp only [List.foldl_cons, List.prod_cons]
    rw [ih (mulInt acc v) (wrapInt_inRange _), mulInt, wrapInt_mul_wrapInt, mul_assoc]

/-! ## The state-space estimator: claims C1 to C4 -/

set_option maxRecDepth 100000

/-- Claim C1, counterexample: on the struct type with 64 fields of type bool
`typeStateSpace` returns 0, which is not at least 1, and on the struct type
with 63 fields of type bool it returns a negative number. -/
theorem typeStateSpace_overflow_counterexample :
    (typeStateSpace (boolStruct 64)).value = 0
      ∧ ¬ (1 ≤ (typeStateSpace (boolStruct 64)).value)
      ∧ (typeStateSpace (boolStruct 63)).value < 0 := by
  refine ⟨by rfl, ?_, ?_⟩
  · have h : (typeStateSpace (boolStruct 64)).value = 0 := by rfl
    rw [h]
    decide
  · have h : (typeStateSpace (boolStruct 63)).value = -(2 ^ 63) := by rfl
    rw [h]
    decide

/-- Claim C1, amended: `typeStateSpace` is total, and for every type whose
state space computed without overflow is below `2 ^ 63` the value returned is
that state space and is at least 1. -/
theorem typeStateSpace_ge_one (t : GoType) (h : (typeStateSpaceExact t : Int) < 2 ^ 63) :
    1 ≤ (typeStateSpace t).value ∧ (typeStateSpace t).value = typeStateSpaceExact t := by
  have hpos := typeStateSpaceExact_pos t
  have heq : (typeStateSpace t).value = typeStateSpaceExact t := by
    rw [typeStateSpace_value_eq_wrap]
    apply wrapInt_of_inRange
    unfold inIntRange
    omega
  refine ⟨?_, heq⟩
  rw [heq]
  exact_mod_cast hpos

/-- Witness of `typeStateSpace_ge_one` on `struct { a bool; b []int }`. -/
theorem typeStateSpace_ge_one_witness :
    (typeStateSpaceExact (.Struct [("a", .Basic .Bool), ("b", .Slice (.Basic .Int))]) : Int) < 2 ^ 63
      ∧ 1 ≤ (typeStateSpace (.Struct [("a", .Basic .Bool), ("b", .Slice (.Basic .Int))])).value
      ∧ (typeStateSpace (.Struct [("a", .Basic .Bool), ("b", .Slice (.Basic .Int))])).value
          = typeStateSpaceExact (.Struct [("a", .Basic .Bool), ("b", .Slice (.Basic .Int))]) :=
  ⟨by decide,
   typeStateSpace_ge_one (.Struct [("a", .Basic .Bool), ("b", .Slice (.Basic .Int))]) (by decide)⟩

/-- Claim C2, counterexample: on 8 nested slices of int `typeStateSpace`
returns `10 ^ 17`, and on the slice of that type it returns
-8446744073709551616, which is not `10 ^ 17 * 100`. -/
theorem typeStateSpace_slice_row_counterexample :
    (typeStateSpace (nestedSlice 8)).value = 10 ^ 17
      ∧ (typeStateSpace (.Slice (nestedSlice 8))).value = -8446744073709551616
      ∧ (typeStateSpace (.Slice (nestedSlice 8))).value
          ≠ (typeStateSpace (nestedSlice 8)).value * 100 := by
  have h1 : (typeStateSpace (nestedSlice 8)).value = 10 ^ 17 := by rfl
  have h2 : (typeStateSpace (.Slice (nestedSlice 8))).value = -8446744073709551616 := by rfl
  refine ⟨h1, h2, ?_⟩
  rw [h1, h2]
  decide

/-- Claim C2, amended: the rows of the policy table other than the aggregate
one.  Whenever the state space of the element times 100 fits in an `int`, the
state space of the slice is that integer product; a pointer has the state
space of its base, bool is 2, string is 10, nil is 1, and every type `t` that
is not a basic, slice, pointer or struct type is 1. -/
theorem typeStateSpace_policy_table (e t : GoType)
    (h : inIntRange ((typeStateSpace e).value * 100)) :
    (typeStateSpace (.Slice e)).value = (typeStateSpace e).value * 100
      ∧ (typeStateSpace (.Pointer e)).value = (typeStateSpace e).value
      ∧ (typeStateSpace (.Basic .Bool)).value = 2
      ∧ (typeStateSpace (.Basic .String)).value = 10
      ∧ (typeStateSpace .nil).value = 1
      ∧ ((∃ k, t = .Basic k) ∨ (∃ elem, t = .Slice elem) ∨ (∃ elem, t = .Pointer elem)
          ∨ (∃ fs, t = .Struct fs) ∨ (typeStateSpace t).value = 1) := by
  refine ⟨?_, by simp [typeStateSpace], rfl, rfl, rfl, ?_⟩
  · simp only [typeStateSpace, mulInt]
    exact wrapInt_of_inRange _ h
  · cases t <;> simp [typeStateSpace]

/-- Witness of `typeStateSpace_policy_table` on the slice of 7 nested slices
of int, whose state space `10 ^ 17` is the largest of a nested slice of int
that fits, and on a named type. -/
theorem typeStateSpace_policy_table_witness :
    inIntRange ((typeStateSpace (nestedSlice 7)).value * 100)
      ∧ (typeStateSpace (.Slice (nestedSlice 7))).value
          = (typeStateSpace (nestedSlice 7)).value * 100
      ∧ (typeStateSpace (.Slice (nestedSlice 7))).value = 10 ^ 17 :=
  have h7 : (typeStateSpace (nestedSlice 7)).value = 10 ^ 15 := by rfl
  have hr : inIntRange ((typeStateSpace (nestedSlice 7)).value * 100) := by
    rw [h7]
    exact ⟨by decide, by decide⟩
  ⟨hr, (typeStateSpace_policy_table (nestedSlice 7) (.Named "T") hr).1, by rfl⟩

/-- Claim C3, counterexample: on the struct type with 19 fields of type string
`typeStateSpace` returns -8446744073709551616, while the product of the state
spaces of its fields is `10 ^ 19`. -/
theorem typeStateSpace_struct_product_counterexample :
    (typeStateSpace (.Struct (stringFields 19))).value = -8446744073709551616
      ∧ productOfStateSpaces ((stringFields 19).map Prod.snd) = 10 ^ 19
      ∧ (typeStateSpace (.Struct (stringFields 19))).value
          ≠ productOfStateSpaces ((stringFields 19).map Prod.snd) := by
  have h1 : (typeStateSpace (.Struct (stringFields 19))).value = -8446744073709551616 := by
    rfl
  have h2 : productOfStateSpaces ((stringFields 19).map Prod.snd) = 10 ^ 19 := by rfl
  refine ⟨h1, h2, ?_⟩
  rw [h1, h2]
  decide

/-- Claim C3, amended: whenever the integer product of the state spaces of the
field types of a struct fits in an `int`, the state space of the struct is
that product; it is 1 for a struct without fields, and for a struct with two
fields whose product fits it is the integer product of the two factors. -/
theorem typeStateSpace_struct_product (fs : List (String × GoType))
    (n1 n2 : String) (t1 t2 : GoType)
    (h : inIntRange (productOfStateSpaces (fs.map Prod.snd)))
    (h2 : inIntRange ((typeStateSpace t1).value * (typeStateSpace t2).value)) :
    (typeStateSpace (.Struct fs)).value = productOfStateSpaces (fs.map Prod.snd)
      ∧ (typeStateSpace (.Struct [])).value = 1
      ∧ (typeStateSpace (.Struct [(n1, t1), (n2, t2)])).value
          = (typeStateSpace t1).value * (typeStateSpace t2).value := by
  have hwrap : ∀ gs : List (String × GoType),
      (typeStateSpace (.Struct gs)).value
        = wrapInt (productOfStateSpaces (gs.map Prod.snd)) := by
    intro gs
    have hf : (typeStateSpace (.Struct gs)).value
        = (gs.map Prod.snd).foldl (fun a t => mulInt a (typeStateSpace t).value) 1 := by
      simp only [typeStateSpace]
      exact structLoop_value_eq_foldl gs 1 []
    have hp := foldl_mulInt_eq_wrap ((gs.map Prod.snd).map (fun t => (typeStateSpace t).value))
      1 (by unfold inIntRange; omega)
    rw [List.foldl_map] at hp
    rw [hf, hp, one_mul]
    rfl
  refine ⟨?_, ?_, ?_⟩
  · rw [hwrap fs]
    exact wrapInt_of_inRange _ h
  · simp [typeStateSpace, structLoop]
  · rw [hwrap]
    have hp : productOfStateSpaces ([(n1, t1), (n2, t2)].map Prod.snd)
        = (typeStateSpace t1).value * (typeStateSpace t2).value := by
      simp [productOfStateSpaces]
    rw [hp]
    exact wrapInt_of_inRange _ h2

/-- Witness of `typeStateSpace_struct_product` on the struct with 18 fields of
type string, whose state space `10 ^ 18` fits, and on
`struct { a bool; b []int }`. -/
theorem typeStateSpace_struct_product_witness :
    inIntRange (productOfStateSpaces ((stringFields 18).map Prod.snd))
      ∧ inIntRange ((typeStateSpace (.Basic .Bool)).value
          * (typeStateSpace (.Slice (.Basic .Int))).value)
      ∧ (typeStateSpace (.Struct (stringFields 18))).value
          = productOfStateSpaces ((stringFields 18).map Prod.snd)
      ∧ (typeStateSpace (.Struct [])).value = 1
      ∧ (typeStateSpace (.Struct [("a", .Basic .Bool), ("b", .Slice (.Basic .Int))])).value
          = (typeStateSpace (.Basic .Bool)).value * (typeStateSpace (.Slice (.Basic .Int))).value :=
  have hp : productOfStateSpaces ((stringFields 18).map Prod.snd) = 10 ^ 18 := by rfl
  have hv : (typeStateSpace (.Basic .Bool)).value
      * (typeStateSpace (.Slice (.Basic .Int))).value = 2000 := by rfl
  have h1 : inIntRange (productOfStateSpaces ((stringFields 18).map Prod.snd)) := by
    rw [hp]
    exact ⟨by decide, by decide⟩
  have h2 : inIntRange ((typeStateSpace (.Basic .Bool)).value
      * (typeStateSpace (.Slice (.Basic .Int))).value) := by
    rw [hv]
    exact ⟨by decide, by decide⟩
  ⟨h1, h2, typeStateSpace_struct_product (stringFields 18) "a" "b" (.Basic .Bool)
    (.Slice (.Basic .Int)) h1 h2⟩

/-- Claim C4, the code at the failing inputs: for the integer kinds other than
`int` and `uint64` the switch of `typeStateSpace` takes its default branch,
which prints a diagnostic and lets the function return 1, not 10. -/
theorem typeStateSpace_integer_kinds :
    (typeStateSpace (.Basic .Int)).value = 10
      ∧ (typeStateSpace (.Basic .Uint64)).value = 10
      ∧ (typeStateSpace (.Basic .Int8)).value = 1
      ∧ (typeStateSpace (.Basic .Int16)).value = 1
      ∧ (typeStateSpace (.Basic .Int32)).value = 1
      ∧ (typeStateSpace (.Basic .Int64)).value = 1
      ∧ (typeStateSpace (.Basic .Uint)).value = 1
      ∧ (typeStateSpace (.Basic .Uint8)).value = 1
      ∧ (typeStateSpace (.Basic .Uint16)).value = 1
      ∧ (typeStateSpace (.Basic .Uint32)).value = 1
      ∧ (typeStateSpace (.Basic .Uintptr)).value = 1
      ∧ (typeStateSpace (.Basic .Int32)).stdout = ["не указан тип: 5"]
      ∧ exprType emptyPackage noObjects 1 (plainIdent "int32") = .ok (.Basic .Int32) := by
  refine ⟨rfl, rfl, rfl, rfl, rfl, rfl, rfl, rfl, rfl, rfl, rfl, by decide, rfl⟩

/-! ## Lemmas on the parameter loop and on ast.Inspect -/

theorem stateSpaceLoop_skip_unresolved (pkg : Package) (objs : Nat → Object) (fuel : Nat)
    (param : Field) (post : List Field)
    (h : exprType pkg objs fuel param.Typ = .ok .nil) :
    ∀ (pre : List Field) (acc : Int) (out : List String),
      stateSpaceLoop pkg objs fuel (pre ++ param :: post) acc out
        = stateSpaceLoop pkg objs fuel (pre ++ post) acc out
  | [], acc, out => by
    simp [stateSpaceLoop, h, GoType.isNil]
  | p :: pre, acc, out => by
    simp only [List.cons_append, stateSpaceLoop]
    cases exprType pkg objs fuel p.Typ with
    | ok typ =>
      by_cases hn : typ.isNil = true
      · simp only [hn, if_true]
        exact stateSpaceLoop_skip_unresolved pkg objs fuel param post h pre _ _
      · simp only [hn]
        exact stateSpaceLoop_skip_unresolved pkg objs fuel param post h pre _ _
    | panic msg => rfl
    | outOfFuel => rfl

mutual
theorem Inspect_counts {f : Option Node → Nat → Bool × Nat} {p : NodeKind → Bool}
    (hf : ∀ (n : Node) (s : Nat), f (some n) s = (true, if p n.kind then s + 1 else s))
    (hnil : ∀ s : Nat, (f none s).2 = s) :
    ∀ (n : Node) (s : Nat), Inspect f n s = s + (occurring n).countP (fun m => p m.kind)
  | .mk k cs, s => by
    have ih := InspectList_counts hf hnil cs
    simp only [Inspect, hf, if_true, hnil, ih, occurring, List.countP_cons, Node.kind]
    by_cases hp : p k = true
    · simp only [hp, if_true]
      omega
    · simp only [hp]
      simp
theorem InspectList_counts {f : Option Node → Nat → Bool × Nat} {p : NodeKind → Bool}
    (hf : ∀ (n : Node) (s : Nat), f (some n) s = (true, if p n.kind then s + 1 else s))
    (hnil : ∀ s : Nat, (f none s).2 = s) :
    ∀ (cs : List Node) (s : Nat),
      InspectList f cs s = s + (occurringList cs).countP (fun m => p m.kind)
  | [], s => by simp [InspectList, occurringList]
  | c :: cs, s => by
    have h1 := Inspect_counts hf hnil c
    have h2 := InspectList_counts hf hnil cs
    simp only [InspectList, occurringList, List.countP_append, h1, h2]
    omega
end

theorem branchingVisitor_spec (n : Node) (s : Nat) :
    branchingVisitor (some n) s = (true, if isBranchingStmt n.kind then s + 1 else s) := by
  cases n with
  | mk k cs => cases k <;> rfl

theorem complexityVisitor_spec (n : Node) (s : Nat) :
    complexityVisitor (some n) s
      = (true, if (isBinaryExpr n.kind || isCallExpr n.kind || isAssignStmt n.kind)
          then s + 1 else s) := by
  cases n with
  | mk k cs => cases k <;> rfl

theorem assignmentVisitor_spec (n : Node) (s : Nat) :
    assignmentVisitor (some n) s = (true, if isAssignStmt n.kind then s + 1 else s) := by
  cases n with
  | mk k cs => cases k <;> rfl

theorem countP_three_kinds (ns : List Node) :
    ns.countP (fun m => isBinaryExpr m.kind || isCallExpr m.kind || isAssignStmt m.kind)
      = ns.countP (fun m => isBinaryExpr m.kind) + ns.countP (fun m => isCallExpr m.kind)
        + ns.countP (fun m => isAssignStmt m.kind) := by
  induction ns with
  | nil => simp
  | cons m rest ih =>
    simp only [List.countP_cons, ih]
    cases m with
    | mk k cs => cases k <;> simp [Node.kind, isBinaryExpr, isCallExpr, isAssignStmt] <;> omega

theorem Inspect_branching (body : Node) :
    Inspect branchingVisitor body 0 = occurrences isBranchingStmt body := by
  rw [Inspect_counts branchingVisitor_spec (fun _ => rfl)]
  simp [occurrences]

theorem Inspect_complexity (body : Node) :
    Inspect complexityVisitor body 0
      = occurrences isBinaryExpr body + occurrences isCallExpr body
        + occurrences isAssignStmt body := by
  rw [@Inspect_counts complexityVisitor
    (fun k => isBinaryExpr k || isCallExpr k || isAssignStmt k)
    complexityVisitor_spec (fun _ => rfl), countP_three_kinds]
  simp [occurrences]

theorem Inspect_assignment (body : Node) :
    Inspect assignmentVisitor body 0 = occurrences isAssignStmt body := by
  rw [Inspect_counts assignmentVisitor_spec (fun _ => rfl)]
  simp [occurrences]

/-! ## The orchestrated products: claims C5 and C6 -/

/-- Claim C5, the code at the failing input: for `func f(a, b bool)`, whose two
parameters share one field of the parameter list, `analyzeInputStateSpace`
returns 2 at every positive recursion budget, while one factor for each
declared parameter gives 4, the value returned for `func f(a bool, b bool)`. -/
theorem analyzeInputStateSpace_grouped_parameters (fuel : Nat) :
    analyzeInputStateSpace emptyPackage noObjects (fuel + 1) groupedBools = .ok ⟨2, []⟩
      ∧ productOfStateSpaces [.Basic .Bool, .Basic .Bool] = 4
      ∧ analyzeInputStateSpace emptyPackage noObjects (fuel + 1) separateBools = .ok ⟨4, []⟩ := by
  refine ⟨rfl, by decide, rfl⟩

/-- Claim C6: a parameter whose type expression `exprType` resolves to nil
contributes nothing: `analyzeInputStateSpace` ends the same way, with the
same value and the same output, as on the declaration without that parameter,
and on a declaration whose only parameter it is the function returns 1 and
raises no error. -/
theorem analyzeInputStateSpace_unresolved_parameter (pkg : Package) (objs : Nat → Object)
    (fuel : Nat) (name : String) (results : Option (List Field)) (body : Option Node)
    (pre post : List Field) (param : Field)
    (h : exprType pkg objs fuel param.Typ = .ok .nil) :
    analyzeInputStateSpace pkg objs fuel ⟨name, ⟨some (pre ++ param :: post), results⟩, body⟩
        = analyzeInputStateSpace pkg objs fuel ⟨name, ⟨some (pre ++ post), results⟩, body⟩
      ∧ analyzeInputStateSpace pkg objs fuel ⟨name, ⟨some [param], results⟩, body⟩
        = .ok ⟨1, []⟩ := by
  constructor
  · simp only [analyzeInputStateSpace]
    exact stateSpaceLoop_skip_unresolved pkg objs fuel param post h pre 1 []
  · simp [analyzeInputStateSpace, stateSpaceLoop, h, GoType.isNil]

/-- Witness of `analyzeInputStateSpace_unresolved_parameter` on
`func f(a bool, x Foo)` with `Foo` undeclared. -/
theorem analyzeInputStateSpace_unresolved_parameter_witness :
    exprType emptyPackage noObjects 1 unresolvedParam.Typ = .ok .nil
      ∧ analyzeInputStateSpace emptyPackage noObjects 1
          ⟨"f", ⟨some ([boolParam] ++ unresolvedParam :: []), none⟩, some (leaf .BlockStmt)⟩
        = analyzeInputStateSpace emptyPackage noObjects 1
          ⟨"f", ⟨some ([boolParam] ++ []), none⟩, some (leaf .BlockStmt)⟩
      ∧ analyzeInputStateSpace emptyPackage noObjects 1
          ⟨"f", ⟨some [unresolvedParam], none⟩, some (leaf .BlockStmt)⟩
        = .ok ⟨1, []⟩ :=
  ⟨rfl, analyzeInputStateSpace_unresolved_parameter emptyPackage noObjects 1 "f" none
    (some (leaf .BlockStmt)) [boolParam] [] unresolvedParam rfl⟩

/-! ## The counters: claims C7 to C10 -/

/-- Claim C7: on a declaration with a body, `analyzeBranching` returns the
number of nodes of the body's tree that are if, (expression) switch, for or
range statements, each node counted once wherever it occurs; on the body
`for { if a { if b { } } }` it returns 3. -/
theorem analyzeBranching_counts (name : String) (typ : FuncType) (body : Node) :
    analyzeBranching ⟨name, typ, some body⟩ = .ok (occurrences isBranchingStmt body)
      ∧ analyzeBranching ⟨name, typ, some loopTwoIfs⟩ = .ok 3 := by
  constructor
  · simp only [analyzeBranching, Inspect_branching]
  · rfl

/-- Claim C8, the code at the failing input: the body
`switch a.(type) { case int: }; select { }` holds two multi-way branch
statements, a type switch and a select, and `analyzeBranching` returns 0. -/
theorem analyzeBranching_misses_switch_like (name : String) (typ : FuncType) :
    analyzeBranching ⟨name, typ, some switchLikeBody⟩ = .ok 0
      ∧ occurrences isSwitchLike switchLikeBody = 2 := by
  exact ⟨rfl, rfl⟩

/-- Claim C9: on a declaration with a body, `analyzeWTFComplexity` returns the
number of binary-expression nodes plus the number of call-expression nodes
plus the number of assignment-statement nodes of the body's tree, nested
occurrences included; on `return a + b*c` and on `f(g(x))` it returns 2. -/
theorem analyzeWTFComplexity_counts (name : String) (typ : FuncType) (body : Node) :
    analyzeWTFComplexity ⟨name, typ, some body⟩
        = .ok (occurrences isBinaryExpr body + occurrences isCallExpr body
            + occurrences isAssignStmt body)
      ∧ analyzeWTFComplexity ⟨name, typ, some sumProductBody⟩ = .ok 2
      ∧ analyzeWTFComplexity ⟨name, typ, some nestedCallBody⟩ = .ok 2 := by
  refine ⟨?_, rfl, rfl⟩
  simp only [analyzeWTFComplexity, Inspect_complexity]

/-- Claim C10: for every function declaration, either it has no body and both
counters stop in the same nil dereference, or both return and the value of
`countLocalAssignment` is at most the value of `analyzeWTFComplexity`. -/
theorem countLocalAssignment_le_complexity (f : FuncDecl) :
    (f.Body = none ∧ countLocalAssignment f = .panic nilBody
        ∧ analyzeWTFComplexity f = .panic nilBody)
      ∨ (∃ a c : Nat, countLocalAssignment f = .ok a ∧ analyzeWTFComplexity f = .ok c
          ∧ a ≤ c ∧ f.Body ≠ none) := by
  cases hb : f.Body with
  | none =>
    left
    simp [countLocalAssignment, analyzeWTFComplexity, hb]
  | some body =>
    right
    refine ⟨occurrences isAssignStmt body,
      occurrences isBinaryExpr body + occurrences isCallExpr body
        + occurrences isAssignStmt body, ?_, ?_, ?_, ?_⟩
    · simp only [countLocalAssignment, hb, Inspect_assignment]
    · simp only [analyzeWTFComplexity, hb, Inspect_complexity]
    · omega
    · simp

/-! ## Lemmas on occurrences -/

theorem occurrences_le_counted (p : NodeKind → Bool) (hp : ∀ k, p k = true → isCounted k = true)
    (n : Node) : occurrences p n ≤ occurrences isCounted n := by
  unfold occurrences
  apply List.countP_mono_left
  intro m _ hm
  exact hp m.kind hm

theorem occurrences_oneIfBody (p : NodeKind → Bool) (x y l r : Node) :
    occurrences p (oneIfBody x y l r)
      = (if p .BlockStmt then 1 else 0) + (if p .IfStmt then 1 else 0)
        + (if p .BinaryExpr then 1 else 0) + (if p .BlockStmt then 1 else 0)
        + (if p .AssignStmt then 1 else 0)
        + (occurrences p x + occurrences p y + occurrences p l + occurrences p r) := by
  simp only [occurrences, oneIfBody, occurring, occurringList, List.countP_cons,
    List.countP_append, List.countP_nil, List.append_nil, Node.kind]
  omega

/-! ## The documentation of countLocalAssignment: claim C11 -/

/-- Claim C11, the code at the failing inputs: `countLocalAssignment` counts
assignment statements, not local variables.  It returns 0 on `{ var x int }`,
3 on `{ x := 1; x = 2; x = 3 }` and 1 on `{ a, b := 1, 2 }`, bodies that
declare one, one and two local variables. -/
theorem countLocalAssignment_not_local_variables (name : String) (typ : FuncType) :
    countLocalAssignment ⟨name, typ, some varDeclBody⟩ = .ok 0
      ∧ countLocalAssignment ⟨name, typ, some reassignBody⟩ = .ok 3
      ∧ countLocalAssignment ⟨name, typ, some pairDefineBody⟩ = .ok 1 :=
  ⟨rfl, rfl, rfl⟩

/-! ## End-to-end scenarios: claims C12 to C14 -/

theorem counters_oneIfBody (name : String) (typ : FuncType) (x y l r : Node)
    (hx : occurrences isCounted x = 0) (hy : occurrences isCounted y = 0)
    (hl : occurrences isCounted l = 0) (hr : occurrences isCounted r = 0) :
    analyzeBranching ⟨name, typ, some (oneIfBody x y l r)⟩ = .ok 1
      ∧ analyzeWTFComplexity ⟨name, typ, some (oneIfBody x y l r)⟩ = .ok 2
      ∧ countLocalAssignment ⟨name, typ, some (oneIfBody x y l r)⟩ = .ok 1 := by
  have hzero : ∀ (p : NodeKind → Bool), (∀ k, p k = true → isCounted k = true) →
      occurrences p x + occurrences p y + occurrences p l + occurrences p r = 0 := by
    intro p hp
    have ex := occurrences_le_counted p hp x
    have ey := occurrences_le_counted p hp y
    have el := occurrences_le_counted p hp l
    have er := occurrences_le_counted p hp r
    omega
  have hbr := hzero isBranchingStmt (fun k hk => by simp [isCounted, hk])
  have hbin := hzero isBinaryExpr (fun k hk => by simp [isCounted, hk])
  have hcall := hzero isCallExpr (fun k hk => by simp [isCounted, hk])
  have hasg := hzero isAssignStmt (fun k hk => by simp [isCounted, hk])
  refine ⟨?_, ?_, ?_⟩
  · simp only [analyzeBranching, Inspect_branching, occurrences_oneIfBody, hbr]
    rfl
  · simp only [analyzeWTFComplexity, Inspect_complexity, occurrences_oneIfBody, hbin, hcall,
      hasg]
    rfl
  · simp only [countLocalAssignment, Inspect_assignment, occurrences_oneIfBody, hasg]
    rfl

theorem reportFuncDecl_of_parts (pkg : Package) (objs : Nat → Object) (fuel : Nat)
    (fn : FuncDecl) (i o : Int) (b w c : Nat)
    (hin : analyzeInputStateSpace pkg objs fuel fn = .ok ⟨i, []⟩)
    (hout : analyzeOutputStateSpace pkg objs fuel fn = .ok ⟨o, []⟩)
    (hb : analyzeBranching fn = .ok b) (hw : analyzeWTFComplexity fn = .ok w)
    (hc : countLocalAssignment fn = .ok c) :
    reportFuncDecl pkg objs fuel fn = .ok ⟨i, o, b, w, c, reportLines fn.Name i o b w c⟩ := by
  simp only [reportFuncDecl, hin, hout, hb, hw, hc, List.append_nil, List.nil_append]

/-- Claim C12, scenario A: for a declaration with one parameter whose type
resolves to bool and one whose type resolves to slice of int, in either
order, a single result whose type resolves to int, and the body
`{ if x op y { l = r } }` whose operands `x`, `y`, `l`, `r` hold no counted
node, the loop body of `main` computes 2000, 10, 1, 2 and 1, and prints
them. -/
theorem scenario_A_report (pkg : Package) (objs : Nat → Object) (fuel : Nat)
    (name n1 n2 : String) (rn : Option String) (t1 t2 tr : Expr) (x y l r : Node)
    (h1 : exprType pkg objs fuel t1 = .ok (.Basic .Bool))
    (h2 : exprType pkg objs fuel t2 = .ok (.Slice (.Basic .Int)))
    (h3 : exprType pkg objs fuel tr = .ok (.Basic .Int))
    (hx : occurrences isCounted x = 0) (hy : occurrences isCounted y = 0)
    (hl : occurrences isCounted l = 0) (hr : occurrences isCounted r = 0) :
    reportFuncDecl pkg objs fuel
        ⟨name, ⟨some [.mk [n1] t1, .mk [n2] t2], some [.mk rn.toList tr]⟩,
          some (oneIfBody x y l r)⟩
      = .ok ⟨2000, 10, 1, 2, 1, reportLines name 2000 10 1 2 1⟩
      ∧ reportFuncDecl pkg objs fuel
        ⟨name, ⟨some [.mk [n2] t2, .mk [n1] t1], some [.mk rn.toList tr]⟩,
          some (oneIfBody x y l r)⟩
      = .ok ⟨2000, 10, 1, 2, 1, reportLines name 2000 10 1 2 1⟩ := by
  constructor
  · have hcnt := counters_oneIfBody name
      ⟨some [.mk [n1] t1, .mk [n2] t2], some [.mk rn.toList tr]⟩ x y l r hx hy hl hr
    refine reportFuncDecl_of_parts pkg objs fuel _ 2000 10 1 2 1 ?_ ?_ hcnt.1 hcnt.2.1 hcnt.2.2
    · simp only [analyzeInputStateSpace, stateSpaceLoop, Field.Typ, h1, h2, GoType.isNil,
        typeStateSpace, List.append_nil]
      rfl
    · simp only [analyzeOutputStateSpace, stateSpaceLoop, Field.Typ, h3, GoType.isNil,
        typeStateSpace, List.append_nil]
      rfl
  · have hcnt := counters_oneIfBody name
      ⟨some [.mk [n2] t2, .mk [n1] t1], some [.mk rn.toList tr]⟩ x y l r hx hy hl hr
    refine reportFuncDecl_of_parts pkg objs fuel _ 2000 10 1 2 1 ?_ ?_ hcnt.1 hcnt.2.1 hcnt.2.2
    · simp only [analyzeInputStateSpace, stateSpaceLoop, Field.Typ, h1, h2, GoType.isNil,
        typeStateSpace, List.append_nil]
      rfl
    · simp only [analyzeOutputStateSpace, stateSpaceLoop, Field.Typ, h3, GoType.isNil,
        typeStateSpace, List.append_nil]
      rfl

/-- Witness of `scenario_A_report` on
`func f(flag bool, xs []int) int { if n > 0 { r = n } }`. -/
theorem scenario_A_report_witness :
    exprType emptyPackage noObjects 2 (plainIdent "bool") = .ok (.Basic .Bool)
      ∧ exprType emptyPackage noObjects 2 (.ArrayType none (plainIdent "int"))
          = .ok (.Slice (.Basic .Int))
      ∧ exprType emptyPackage noObjects 2 (plainIdent "int") = .ok (.Basic .Int)
      ∧ occurrences isCounted (leaf .Ident) = 0
      ∧ occurrences isCounted (leaf .BasicLit) = 0
      ∧ reportFuncDecl emptyPackage noObjects 2
          ⟨"f", ⟨some [.mk ["flag"] (plainIdent "bool"),
                  .mk ["xs"] (.ArrayType none (plainIdent "int"))],
                some [.mk (none : Option String).toList (plainIdent "int")]⟩,
            some (oneIfBody (leaf .Ident) (leaf .BasicLit) (leaf .Ident) (leaf .Ident))⟩
        = .ok ⟨2000, 10, 1, 2, 1, reportLines "f" 2000 10 1 2 1⟩ :=
  ⟨rfl, rfl, rfl, rfl, rfl,
   (scenario_A_report emptyPackage noObjects 2 "f" "flag" "xs" none (plainIdent "bool")
     (.ArrayType none (plainIdent "int")) (plainIdent "int")
     (leaf .Ident) (leaf .BasicLit) (leaf .Ident) (leaf .Ident)
     rfl rfl rfl rfl rfl rfl rfl).1⟩

/-- Claim C13, scenario B: for a declaration with no parameters (an empty or
absent parameter list), no results and the empty body `{ }`, whatever the
snapshot and the recursion budget, the two state spaces are 1, the three
counters are 0, and the loop body of `main` reports these five numbers. -/
theorem scenario_B_report (pkg : Package) (objs : Nat → Object) (fuel : Nat) (name : String)
    (params results : Option Unit) :
    analyzeInputStateSpace pkg objs fuel
        ⟨name, ⟨params.map (fun _ => []), results.map (fun _ => [])⟩, some (.mk .BlockStmt [])⟩
      = .ok ⟨1, []⟩
      ∧ analyzeOutputStateSpace pkg objs fuel
        ⟨name, ⟨params.map (fun _ => []), results.map (fun _ => [])⟩, some (.mk .BlockStmt [])⟩
      = .ok ⟨1, []⟩
      ∧ analyzeBranching
        ⟨name, ⟨params.map (fun _ => []), results.map (fun _ => [])⟩, some (.mk .BlockStmt [])⟩
      = .ok 0
      ∧ analyzeWTFComplexity
        ⟨name, ⟨params.map (fun _ => []), results.map (fun _ => [])⟩, some (.mk .BlockStmt [])⟩
      = .ok 0
      ∧ countLocalAssignment
        ⟨name, ⟨params.map (fun _ => []), results.map (fun _ => [])⟩, some (.mk .BlockStmt [])⟩
      = .ok 0
      ∧ reportFuncDecl pkg objs fuel
        ⟨name, ⟨params.map (fun _ => []), results.map (fun _ => [])⟩, some (.mk .BlockStmt [])⟩
      = .ok ⟨1, 1, 0, 0, 0, reportLines name 1 1 0 0 0⟩ := by
  cases params <;> cases results <;> exact ⟨rfl, rfl, rfl, rfl, rfl, rfl⟩

theorem duplicateField_two (na nb : String) (ta tb : GoType) (hne : na ≠ nb) :
    duplicateField [(na, ta), (nb, tb)] [] = false := by
  have hne2 : ¬ nb = na := fun h => hne h.symm
  by_cases ha : na = "_" <;> by_cases hb : nb = "_" <;>
    simp [duplicateField, ha, hb, hne2]

theorem typeStateSpace_bool_string (na nb : String) (ka kb : BasicKind)
    (hk : (ka = .Bool ∧ kb = .String) ∨ (ka = .String ∧ kb = .Bool)) :
    typeStateSpace (.Struct [(na, .Basic ka), (nb, .Basic kb)]) = ⟨20, []⟩ := by
  rcases hk with ⟨rfl, rfl⟩ | ⟨rfl, rfl⟩ <;> rfl

/-- Claim C14, scenario D: take a struct type expression with one field whose
type resolves to bool and one whose type resolves to string, in either order
and by whichever strategy the field types are found.  Spelled inline, or named
by an identifier that the snapshot does not know and that is resolved through
its declaration, it resolves to the struct of the two fields, and a parameter
of that type multiplies the running input state space by 20; a function whose
only parameter it is has input state space 20. -/
theorem scenario_D_struct_parameter (pkg : Package) (objs : Nat → Object) (fuel : Nat)
    (na nb : String) (ta tb : Expr) (ka kb : BasicKind) (ptr a : Nat) (name : String)
    (hk : (ka = .Bool ∧ kb = .String) ∨ (ka = .String ∧ kb = .Bool))
    (hne : na ≠ nb)
    (ha : exprType pkg objs fuel ta = .ok (.Basic ka))
    (hb : exprType pkg objs fuel tb = .ok (.Basic kb))
    (hd : pkg.Defs ptr = none) (hu : pkg.Uses ptr = none)
    (hdecl : objTypeSpec objs (some a) = some (.StructType [.mk [na] ta, .mk [nb] tb])) :
    exprType pkg objs (fuel + 1) (.StructType [.mk [na] ta, .mk [nb] tb])
        = .ok (.Struct [(na, .Basic ka), (nb, .Basic kb)])
      ∧ exprType pkg objs (fuel + 2) (.Ident ptr name (some a))
        = .ok (.Struct [(na, .Basic ka), (nb, .Basic kb)])
      ∧ (∀ (names : List String) (rest : List Field) (acc : Int) (out : List String),
          stateSpaceLoop pkg objs (fuel + 1)
              (.mk names (.StructType [.mk [na] ta, .mk [nb] tb]) :: rest) acc out
            = stateSpaceLoop pkg objs (fuel + 1) rest (mulInt acc 20) out)
      ∧ (∀ (names : List String) (rest : List Field) (acc : Int) (out : List String),
          stateSpaceLoop pkg objs (fuel + 2)
              (.mk names (.Ident ptr name (some a)) :: rest) acc out
            = stateSpaceLoop pkg objs (fuel + 2) rest (mulInt acc 20) out)
      ∧ analyzeInputStateSpace pkg objs (fuel + 1)
          (oneParam (.StructType [.mk [na] ta, .mk [nb] tb])) = .ok ⟨20, []⟩
      ∧ analyzeInputStateSpace pkg objs (fuel + 2)
          (oneParam (.Ident ptr name (some a))) = .ok ⟨20, []⟩ := by
  have hinline : exprType pkg objs (fuel + 1) (.StructType [.mk [na] ta, .mk [nb] tb])
      = .ok (.Struct [(na, .Basic ka), (nb, .Basic kb)]) := by
    simp only [exprType, structTypeLoop, Field.Typ, Field.Names, ha, hb, GoType.isNil,
      List.map_cons, List.map_nil, List.nil_append, List.cons_append]
    simp [NewStruct, duplicateField_two na nb _ _ hne]
  have hident : exprType pkg objs (fuel + 2) (.Ident ptr name (some a))
      = .ok (.Struct [(na, .Basic ka), (nb, .Basic kb)]) := by
    rw [← hinline]
    simp only [exprType, hd, hu, hdecl]
  have hval := typeStateSpace_bool_string na nb ka kb hk
  have hstep1 : ∀ (names : List String) (rest : List Field) (acc : Int) (out : List String),
      stateSpaceLoop pkg objs (fuel + 1)
          (.mk names (.StructType [.mk [na] ta, .mk [nb] tb]) :: rest) acc out
        = stateSpaceLoop pkg objs (fuel + 1) rest (mulInt acc 20) out := by
    intro names rest acc out
    rw [stateSpaceLoop]
    simp only [Field.Typ, hinline, GoType.isNil, hval, List.append_nil]
    rfl
  have hstep2 : ∀ (names : List String) (rest : List Field) (acc : Int) (out : List String),
      stateSpaceLoop pkg objs (fuel + 2)
          (.mk names (.Ident ptr name (some a)) :: rest) acc out
        = stateSpaceLoop pkg objs (fuel + 2) rest (mulInt acc 20) out := by
    intro names rest acc out
    rw [stateSpaceLoop]
    simp only [Field.Typ, hident, GoType.isNil, hval, List.append_nil]
    rfl
  refine ⟨hinline, hident, hstep1, hstep2, ?_, ?_⟩
  · simp only [analyzeInputStateSpace, oneParam]
    rw [hstep1]
    rfl
  · simp only [analyzeInputStateSpace, oneParam]
    rw [hstep2]
    rfl

/-- Witness of `scenario_D_struct_parameter` on `func f(x T)` with
`type T struct { a bool; b string }` and on
`func f(x struct { a bool; b string })`, the snapshot empty. -/
theorem scenario_D_struct_parameter_witness :
    exprType emptyPackage declaredStore 1 (plainIdent "bool") = .ok (.Basic .Bool)
      ∧ exprType emptyPackage declaredStore 1 (plainIdent "string") = .ok (.Basic .String)
      ∧ objTypeSpec declaredStore (some 0) = some boolStringStruct
      ∧ analyzeInputStateSpace emptyPackage declaredStore (1 + 1) (oneParam boolStringStruct)
          = .ok ⟨20, []⟩
      ∧ analyzeInputStateSpace emptyPackage declaredStore (1 + 2) (oneParam useOfT)
          = .ok ⟨20, []⟩ :=
  ⟨rfl, rfl, rfl,
   (scenario_D_struct_parameter emptyPackage declaredStore 1 "a" "b" (plainIdent "bool")
     (plainIdent "string") .Bool .String 7 0 "T" (Or.inl ⟨rfl, rfl⟩) (by decide)
     rfl rfl rfl rfl rfl).2.2.2.2⟩

/-! ## The resolver: claims C15 to C17 -/

/-- Claim C15, the code at the failing input: in `struct { Base; name string }`
with `type Base struct { ok bool }` the embedded field has a type that
resolves, to a struct with the field `ok`, yet `exprType` returns a struct
whose only field is `name`: a field without names adds nothing. -/
theorem exprType_drops_embedded_field (fuel : Nat) :
    exprType emptyPackage baseStore (fuel + 3) (.Ident 3 "Base" (some 0))
      = .ok (.Struct [("ok", .Basic .Bool)])
      ∧ exprType emptyPackage baseStore (fuel + 4) embeddingStruct
      = .ok (.Struct [("name", .Basic .String)]) :=
  ⟨rfl, rfl⟩

/-- Claim C16: when the element expression of an array or slice type resolves
to `te`, one more level of recursion resolves the array or slice type to the
slice of `te`, and to nil when `te` is nil; when the base expression of a
pointer type resolves to `tb`, one more level resolves the pointer type to
the pointer to `tb`, and to nil when `tb` is nil. -/
theorem exprType_slice_pointer (pkg : Package) (objs : Nat → Object) (fuel : Nat)
    (len : Option Expr) (e b : Expr) (te tb : GoType)
    (he : exprType pkg objs fuel e = .ok te) (hb : exprType pkg objs fuel b = .ok tb) :
    exprType pkg objs (fuel + 1) (.ArrayType len e)
        = .ok (if te.isNil then .nil else .Slice te)
      ∧ exprType pkg objs (fuel + 1) (.StarExpr b)
        = .ok (if tb.isNil then .nil else .Pointer tb) := by
  constructor
  · simp only [exprType, he]
    cases te.isNil <;> rfl
  · simp only [exprType, hb]
    cases tb.isNil <;> rfl

/-- Witness of `exprType_slice_pointer` on `[]int` and `*Foo`, `Foo`
undeclared. -/
theorem exprType_slice_pointer_witness :
    exprType emptyPackage noObjects 1 (plainIdent "int") = .ok (.Basic .Int)
      ∧ exprType emptyPackage noObjects 1 (plainIdent "Foo") = .ok .nil
      ∧ exprType emptyPackage noObjects (1 + 1) (.ArrayType none (plainIdent "int"))
          = .ok (if (GoType.Basic .Int).isNil then .nil else .Slice (.Basic .Int))
      ∧ exprType emptyPackage noObjects (1 + 1) (.StarExpr (plainIdent "Foo"))
          = .ok (if GoType.nil.isNil then .nil else .Pointer .nil) :=
  ⟨rfl, rfl, exprType_slice_pointer emptyPackage noObjects 1 none (plainIdent "int")
    (plainIdent "Foo") (.Basic .Int) .nil rfl rfl⟩

/-- Claim C17: on an identifier `exprType` returns the type of the object in
`Defs` when there is one; otherwise the type of the object in `Uses` when
there is one; otherwise, when the identifier's object is a type declared by a
type spec, the resolution of the type expression of that spec; otherwise the
type of the universe object of that name when there is one; otherwise nil.
On concrete snapshots: `Defs` wins over `Uses`, `Uses` over the declaration,
the declaration is followed when the snapshot is empty, then the universe,
then nil. -/
theorem exprType_ident_strategies (pkg : Package) (objs : Nat → Object) (fuel : Nat)
    (ptr : Nat) (name : String) (obj : Option Nat) :
    (∀ o, pkg.Defs ptr = some o →
        exprType pkg objs (fuel + 1) (.Ident ptr name obj) = .ok o.Typ)
      ∧ (∀ o, pkg.Defs ptr = none → pkg.Uses ptr = some o →
        exprType pkg objs (fuel + 1) (.Ident ptr name obj) = .ok o.Typ)
      ∧ (∀ typ, pkg.Defs ptr = none → pkg.Uses ptr = none → objTypeSpec objs obj = some typ →
        exprType pkg objs (fuel + 1) (.Ident ptr name obj) = exprType pkg objs fuel typ)
      ∧ (∀ t, pkg.Defs ptr = none → pkg.Uses ptr = none → objTypeSpec objs obj = none →
        universeLookup name = some t →
        exprType pkg objs (fuel + 1) (.Ident ptr name obj) = .ok t)
      ∧ (pkg.Defs ptr = none → pkg.Uses ptr = none → objTypeSpec objs obj = none →
        universeLookup name = none →
        exprType pkg objs (fuel + 1) (.Ident ptr name obj) = .ok .nil)
      ∧ exprType ⟨fun _ => some ⟨.Basic .Bool⟩, fun _ => some ⟨.Basic .String⟩⟩ declaredStore
          (fuel + 1) useOfT = .ok (.Basic .Bool)
      ∧ exprType checkedSnapshot declaredStore (fuel + 1) useOfT = .ok (.Named "T")
      ∧ exprType emptyPackage declaredStore (fuel + 3) useOfT
          = .ok (.Struct [("a", .Basic .Bool), ("b", .Basic .String)])
      ∧ exprType emptyPackage noObjects (fuel + 1) (plainIdent "string") = .ok (.Basic .String)
      ∧ exprType emptyPackage noObjects (fuel + 1) (plainIdent "Foo") = .ok .nil := by
  refine ⟨?_, ?_, ?_, ?_, ?_, rfl, rfl, rfl, rfl, rfl⟩
  · intro o h
    simp only [exprType, h]
  · intro o h1 h2
    simp only [exprType, h1, h2]
  · intro typ h1 h2 h3
    simp only [exprType, h1, h2, h3]
  · intro t h1 h2 h3 h4
    simp only [exprType, h1, h2, h3, h4]
  · intro h1 h2 h3 h4
    simp only [exprType, h1, h2, h3, h4]

/-! ## Output of typeStateSpace: claim C18 -/

mutual
theorem typeStateSpace_stdout_of_listed :
    ∀ t : GoType, onlyListedKinds t = true → (typeStateSpace t).stdout = []
  | .nil, _ => by simp [typeStateSpace]
  | .Basic k, h => by cases k <;> simp_all [typeStateSpace, onlyListedKinds]
  | .Slice e, h => by
    simp only [onlyListedKinds] at h
    simpa [typeStateSpace] using typeStateSpace_stdout_of_listed e h
  | .Pointer e, h => by
    simp only [onlyListedKinds] at h
    simpa [typeStateSpace] using typeStateSpace_stdout_of_listed e h
  | .Struct fs, h => by
    simp only [onlyListedKinds] at h
    simpa [typeStateSpace] using structLoop_stdout_of_listed fs 1 [] h
  | .Array _ _, _ => by simp [typeStateSpace]
  | .Map _ _, _ => by simp [typeStateSpace]
  | .Chan _, _ => by simp [typeStateSpace]
  | .Signature _ _, _ => by simp [typeStateSpace]
  | .Interface, _ => by simp [typeStateSpace]
  | .Named _, _ => by simp [typeStateSpace]
  | .Tuple _, _ => by simp [typeStateSpace]
  | .TypeParam _, _ => by simp [typeStateSpace]
  | .Union _, _ => by simp [typeStateSpace]
  | .Alias _, _ => by simp [typeStateSpace]
theorem structLoop_stdout_of_listed :
    ∀ (fs : List (String × GoType)) (acc : Int) (out : List String),
      onlyListedFields fs = true → (structLoop fs acc out).stdout = out
  | [], acc, out, _ => by simp [structLoop]
  | f :: rest, acc, out, h => by
    simp only [onlyListedFields, Bool.and_eq_true] at h
    have h1 := typeStateSpace_stdout_of_listed f.2 h.1
    have h2 := structLoop_stdout_of_listed rest (mulInt acc (typeStateSpace f.2).value)
      (out ++ (typeStateSpace f.2).stdout) h.2
    simp only [structLoop]
    rw [h2, h1, List.append_nil]
end

/-- Claim C18, counterexample: the parameter type `float64` resolves to the
basic type of kind `Float64`, on which `typeStateSpace` writes the text
"не указан тип: 14" to standard output. -/
theorem typeStateSpace_prints_counterexample :
    exprType emptyPackage noObjects 1 (plainIdent "float64") = .ok (.Basic .Float64)
      ∧ (typeStateSpace (.Basic .Float64)).stdout = ["не указан тип: 14"]
      ∧ (typeStateSpace (.Basic .Float64)).stdout ≠ [] := by
  refine ⟨rfl, by decide, ?_⟩
  have h : (typeStateSpace (.Basic .Float64)).stdout = ["не указан тип: 14"] := by decide
  rw [h]
  exact List.cons_ne_nil _ _

/-- Claim C18, amended: on a type in which every basic type reached through
slices, pointers and struct fields has kind bool, int, uint64 or string,
`typeStateSpace` writes nothing to standard output. -/
theorem typeStateSpace_silent_on_listed (t : GoType) (h : onlyListedKinds t = true) :
    (typeStateSpace t).stdout = [] :=
  typeStateSpace_stdout_of_listed t h

/-- Witness of `typeStateSpace_silent_on_listed` on
`struct { a bool; b []*string; c map[int]float64 }`. -/
theorem typeStateSpace_silent_on_listed_witness :
    onlyListedKinds (.Struct [("a", .Basic .Bool), ("b", .Slice (.Pointer (.Basic .String))),
        ("c", .Map (.Basic .Int) (.Basic .Float64))]) = true
      ∧ (typeStateSpace (.Struct [("a", .Basic .Bool),
          ("b", .Slice (.Pointer (.Basic .String))),
          ("c", .Map (.Basic .Int) (.Basic .Float64))])).stdout = [] :=
  ⟨rfl, typeStateSpace_silent_on_listed _ rfl⟩

/-! ## Unbounded recursion: claim C19 -/

theorem structTypeLoop_outOfFuel (resolve : Expr → Res GoType) (fld : Field)
    (post : List Field) (hfld : resolve fld.Typ = .outOfFuel) :
    ∀ (pre : List Field) (acc : List (String × GoType)),
      (∀ f ∈ pre, ∀ msg : String, resolve (Field.Typ f) ≠ .panic msg) →
      structTypeLoop resolve (pre ++ fld :: post) acc = .outOfFuel
  | [], acc, _ => by simp [structTypeLoop, hfld]
  | f :: pre, acc, hpre => by
    have hf := hpre f (List.mem_cons_self f pre)
    have ih := fun acc' => structTypeLoop_outOfFuel resolve fld post hfld pre acc'
      (fun g hg => hpre g (List.mem_cons_of_mem f hg))
    simp only [List.cons_append, structTypeLoop]
    cases hres : resolve f.Typ with
    | ok t =>
      show (if t.isNil = true then structTypeLoop resolve (pre ++ fld :: post) acc
        else structTypeLoop resolve (pre ++ fld :: post)
          (acc ++ f.Names.map (fun fieldName => (fieldName, t)))) = .outOfFuel
      rw [ih, ih]
      exact ite_self _
    | panic msg => exact absurd hres (hf msg)
    | outOfFuel => rfl

theorem exprType_refersBack_outOfFuel (pkg : Package) (objs : Nat → Object) (a : Nat)
    (typ : Expr) (hdecl : objTypeSpec objs (some a) = some typ)
    (hback : RefersBack pkg objs a typ) :
    ∀ (fuel : Nat) (e : Expr), RefersBack pkg objs a e → exprType pkg objs fuel e = .outOfFuel
  | 0, _, _ => by simp [exprType]
  | fuel + 1, _, h => by
    have ih := exprType_refersBack_outOfFuel pkg objs a typ hdecl hback fuel
    cases h with
    | self ptr name hd hu =>
      simp only [exprType, hd, hu, hdecl]
      exact ih typ hback
    | decl ptr name b typb hd hu hb hrec =>
      simp only [exprType, hd, hu, hb]
      exact ih typb hrec
    | pointer x hx =>
      simp only [exprType, ih x hx]
    | slice len elt he =>
      simp only [exprType, ih elt he]
    | field pre fld post hpre hfld =>
      simp only [exprType]
      rw [structTypeLoop_outOfFuel (exprType pkg objs fuel) fld post (ih _ hfld) pre []
        (fun f hf msg => hpre f hf fuel msg)]

/-- Claim C19: for an identifier that the snapshot does not know and that
names a declared struct type with a field whose type refers back to that
type, directly or through other declarations, the fields before it resolving
without a run-time panic, `exprType` exhausts every recursion budget: no
depth suffices to produce a result. -/
theorem exprType_self_referential_diverges (pkg : Package) (objs : Nat → Object)
    (a ptr : Nat) (name : String) (pre post : List Field) (fld : Field)
    (hd : pkg.Defs ptr = none) (hu : pkg.Uses ptr = none)
    (hdecl : objTypeSpec objs (some a) = some (.StructType (pre ++ fld :: post)))
    (hpre : ∀ f ∈ pre, ∀ (fuel : Nat) (msg : String),
      exprType pkg objs fuel (Field.Typ f) ≠ .panic msg)
    (hback : RefersBack pkg objs a (Field.Typ fld)) :
    ∀ fuel : Nat, exprType pkg objs fuel (.Ident ptr name (some a)) = .outOfFuel := by
  intro fuel
  exact exprType_refersBack_outOfFuel pkg objs a _ hdecl
    (RefersBack.field pre fld post hpre hback) fuel _ (RefersBack.self ptr name hd hu)

/-- Witness of `exprType_self_referential_diverges` on
`type T struct { val int; next *T }`, the snapshot empty. -/
theorem exprType_self_referential_diverges_witness :
    emptyPackage.Defs 9 = none ∧ emptyPackage.Uses 9 = none
      ∧ objTypeSpec listNodeStore (some 0)
          = some (.StructType ([.mk ["val"] (plainIdent "int")]
              ++ .mk ["next"] (.StarExpr (.Ident 5 "T" (some 0))) :: []))
      ∧ (∀ f ∈ [Field.mk ["val"] (plainIdent "int")], ∀ (fuel : Nat) (msg : String),
          exprType emptyPackage listNodeStore fuel (Field.Typ f) ≠ .panic msg)
      ∧ RefersBack emptyPackage listNodeStore 0
          (Field.Typ (.mk ["next"] (.StarExpr (.Ident 5 "T" (some 0)))))
      ∧ exprType emptyPackage listNodeStore 1000 (.Ident 9 "T" (some 0)) = .outOfFuel :=
  have hpre : ∀ f ∈ [Field.mk ["val"] (plainIdent "int")], ∀ (fuel : Nat) (msg : String),
      exprType emptyPackage listNodeStore fuel (Field.Typ f) ≠ .panic msg := by
    intro f hf fuel msg
    rw [List.mem_singleton] at hf
    subst hf
    cases fuel with
    | zero => simp [exprType]
    | succ n =>
      have h : exprType emptyPackage listNodeStore (n + 1)
          (Field.Typ (.mk ["val"] (plainIdent "int"))) = .ok (.Basic .Int) := rfl
      rw [h]
      simp
  have hback : RefersBack emptyPackage listNodeStore 0
      (Field.Typ (.mk ["next"] (.StarExpr (.Ident 5 "T" (some 0))))) :=
    RefersBack.pointer _ (RefersBack.self 5 "T" rfl rfl)
  ⟨rfl, rfl, rfl, hpre, hback,
   exprType_self_referential_diverges emptyPackage listNodeStore 0 9 "T"
     [.mk ["val"] (plainIdent "int")] [] (.mk ["next"] (.StarExpr (.Ident 5 "T" (some 0))))
     rfl rfl rfl hpre hback 1000⟩

/-! ## Additivity of the counters: claim C20 -/

theorem occurringList_append (s1 s2 : List Node) :
    occurringList (s1 ++ s2) = occurringList s1 ++ occurringList s2 := by
  induction s1 with
  | nil => simp [occurringList]
  | cons c cs ih => simp [occurringList, ih]

theorem occurringList_perm {s t : List Node} (h : s.Perm t) :
    (occurringList s).Perm (occurringList t) := by
  induction h with
  | nil => exact List.Perm.refl _
  | cons c _ ih =>
    simp only [occurringList]
    exact List.Perm.append_left _ ih
  | swap c d l =>
    simp only [occurringList]
    exact List.perm_append_comm_assoc _ _ _
  | trans _ _ ih1 ih2 => exact ih1.trans ih2

theorem occurrences_blockOf (p : NodeKind → Bool) (hp : p .BlockStmt = false)
    (stmts : List Node) :
    occurrences p (blockOf stmts) = (occurringList stmts).countP (fun m => p m.kind) := by
  simp [occurrences, blockOf, occurring, List.countP_cons, Node.kind, hp]

theorem occurrences_blockOf_append (p : NodeKind → Bool) (hp : p .BlockStmt = false)
    (s1 s2 : List Node) :
    occurrences p (blockOf (s1 ++ s2))
      = occurrences p (blockOf s1) + occurrences p (blockOf s2) := by
  simp only [occurrences_blockOf p hp, occurringList_append, List.countP_append]

theorem occurrences_blockOf_perm (p : NodeKind → Bool) (hp : p .BlockStmt = false)
    {s t : List Node} (h : s.Perm t) :
    occurrences p (blockOf s) = occurrences p (blockOf t) := by
  simp only [occurrences_blockOf p hp]
  exact (occurringList_perm h).countP_eq _

/-- Claim C20: for statement lists `s1` and `s2`, each of the three counters
on the body `s1 ++ s2` returns the sum of what it returns on the body `s1`
and on the body `s2`; and on two bodies whose statement lists `s` and `t`
are permutations of each other each counter returns the same number. -/
theorem counters_additive (name : String) (typ : FuncType) (s1 s2 s t : List Node)
    (h : s.Perm t) :
    (∃ a b : Nat, analyzeBranching ⟨name, typ, some (blockOf s1)⟩ = .ok a
        ∧ analyzeBranching ⟨name, typ, some (blockOf s2)⟩ = .ok b
        ∧ analyzeBranching ⟨name, typ, some (blockOf (s1 ++ s2))⟩ = .ok (a + b))
      ∧ (∃ a b : Nat, analyzeWTFComplexity ⟨name, typ, some (blockOf s1)⟩ = .ok a
        ∧ analyzeWTFComplexity ⟨name, typ, some (blockOf s2)⟩ = .ok b
        ∧ analyzeWTFComplexity ⟨name, typ, some (blockOf (s1 ++ s2))⟩ = .ok (a + b))
      ∧ (∃ a b : Nat, countLocalAssignment ⟨name, typ, some (blockOf s1)⟩ = .ok a
        ∧ countLocalAssignment ⟨name, typ, some (blockOf s2)⟩ = .ok b
        ∧ countLocalAssignment ⟨name, typ, some (blockOf (s1 ++ s2))⟩ = .ok (a + b))
      ∧ analyzeBranching ⟨name, typ, some (blockOf s)⟩
          = analyzeBranching ⟨name, typ, some (blockOf t)⟩
      ∧ analyzeWTFComplexity ⟨name, typ, some (blockOf s)⟩
          = analyzeWTFComplexity ⟨name, typ, some (blockOf t)⟩
      ∧ countLocalAssignment ⟨name, typ, some (blockOf s)⟩
          = countLocalAssignment ⟨name, typ, some (blockOf t)⟩ := by
  refine ⟨⟨_, _, rfl, rfl, ?_⟩, ⟨_, _, rfl, rfl, ?_⟩, ⟨_, _, rfl, rfl, ?_⟩, ?_, ?_, ?_⟩
  · simp only [analyzeBranching, Inspect_branching,
      occurrences_blockOf_append isBranchingStmt rfl]
  · simp only [analyzeWTFComplexity, Inspect_complexity,
      occurrences_blockOf_append isBinaryExpr rfl, occurrences_blockOf_append isCallExpr rfl,
      occurrences_blockOf_append isAssignStmt rfl]
    congr 1
    omega
  · simp only [countLocalAssignment, Inspect_assignment,
      occurrences_blockOf_append isAssignStmt rfl]
  · simp only [analyzeBranching, Inspect_branching,
      occurrences_blockOf_perm isBranchingStmt rfl h]
  · simp only [analyzeWTFComplexity, Inspect_complexity,
      occurrences_blockOf_perm isBinaryExpr rfl h, occurrences_blockOf_perm isCallExpr rfl h,
      occurrences_blockOf_perm isAssignStmt rfl h]
  · simp only [countLocalAssignment, Inspect_assignment,
      occurrences_blockOf_perm isAssignStmt rfl h]

/-- Witness of `counters_additive` on the statements `x = 1` and
`for { }`, in the two orders. -/
theorem counters_additive_witness :
    List.Perm [Node.mk .AssignStmt [leaf .Ident, leaf .BasicLit],
        Node.mk .ForStmt [leaf .BlockStmt]]
        [Node.mk .ForStmt [leaf .BlockStmt],
          Node.mk .AssignStmt [leaf .Ident, leaf .BasicLit]]
      ∧ analyzeBranching ⟨"f", ⟨none, none⟩,
          some (blockOf [Node.mk .AssignStmt [leaf .Ident, leaf .BasicLit],
            Node.mk .ForStmt [leaf .BlockStmt]])⟩
        = analyzeBranching ⟨"f", ⟨none, none⟩,
          some (blockOf [Node.mk .ForStmt [leaf .BlockStmt],
            Node.mk .AssignStmt [leaf .Ident, leaf .BasicLit]])⟩ :=
  ⟨List.Perm.swap _ _ _,
   (counters_additive "f" ⟨none, none⟩ [] []
     [Node.mk .AssignStmt [leaf .Ident, leaf .BasicLit], Node.mk .ForStmt [leaf .BlockStmt]]
     [Node.mk .ForStmt [leaf .BlockStmt], Node.mk .AssignStmt [leaf .Ident, leaf .BasicLit]]
     (List.Perm.swap _ _ _)).2.2.2.1⟩

end ComplexLint
